import Mathlib

/-!
Verification of the request-body generation core of `openapi-to-hurl`
(`src/request_body/request_body.rs`): the recursive schema-to-example-value
algorithm that converts an OpenAPI schema node into a concrete Hurl JSON
example value.

The embedding mirrors the Rust source function by function.  Rust recursion
through the reference-resolution table has no termination guarantee (the
source has no cycle guard), so every walker function takes an explicit
`fuel : Nat` bound; a `none` result means the fuel ran out, and all theorems
are stated for sufficient fuel.  Diagnostic `debug!` emissions are modelled
by threading an ordered list of emitted messages alongside the result.
-/

namespace OpenapiToHurl

/-- Loosely-typed JSON value as carried by a schema's `example` field
(`serde_json::Value`); numbers keep their textual representation, matching
`n.to_string()` in the source, and objects keep their fields in source
order. -/
inductive SerdeValue : Type where
  | null : SerdeValue
  | bool (b : Bool) : SerdeValue
  | num (s : String) : SerdeValue
  | str (s : String) : SerdeValue
  | arr (elements : List SerdeValue) : SerdeValue
  | obj (fields : List (String × SerdeValue)) : SerdeValue

/-- Modelled from the spec: `template_from_string` (request_body/body.rs,
outside the provided sources) wraps a raw string as a template literal with
no placeholders. -/
structure Template where
  value : String
deriving DecidableEq, Repr

def template_from_string (s : String) : Template := ⟨s⟩

/-- Modelled from the spec: the `Formatting` option set (cli.rs, outside the
provided sources) is owned by an external collaborator and treated opaquely
by the core; only the spacing decorations derived from it matter here. -/
inductive Formatting : Type where
  | multiline : Formatting
  | oneline : Formatting
deriving DecidableEq, Repr

/-- Rendering settings passed through the conversion unchanged
(`SpecBodySettings` in the source). -/
structure SpecBodySettings where
  formatting : Formatting
deriving DecidableEq, Repr

/-- Output example value (`hurl_core::ast::JsonValue`): a tagged union with
layout decorations.  A list element carries a spacing decoration and its
value; an object element carries its key template, a depth-derived spacing
decoration, and its value. -/
inductive JsonValue : Type where
  | Null : JsonValue
  | Boolean (b : Bool) : JsonValue
  | Number (s : String) : JsonValue
  | JString (t : Template) : JsonValue
  | List (space0 : String) (elements : List (String × JsonValue)) : JsonValue
  | Object (space0 : String) (elements : List (Template × String × JsonValue)) : JsonValue

/-- An element of a JSON object value: key template, spacing decoration,
value. -/
abbrev JsonObjectElement : Type := Template × String × JsonValue

/-- Modelled from the spec: `build_json_list_space`
(request_body/hurl_json_building.rs, outside the provided sources) derives
the list spacing decoration from the formatting settings; per the spec it is
distinct from the fixed single-newline decoration used for arrays without an
`items` schema. -/
def build_json_list_space : Formatting → String
  | .multiline => "\n  "
  | .oneline => " "

/-- Modelled from the spec: `build_json_list_value`
(request_body/hurl_json_building.rs, outside the provided sources) wraps a
value as a list element with a formatting-derived spacing decoration. -/
def build_json_list_value (v : JsonValue) (f : Formatting) : String × JsonValue :=
  (build_json_list_space f, v)

/-- Modelled from the spec: the spacing decoration of an object element is
layout derived from the nesting depth and the formatting settings
(request_body/hurl_json_building.rs, outside the provided sources). -/
def object_element_space (depth : Nat) : Formatting → String
  | .multiline => String.join (List.replicate depth "  ")
  | .oneline => " "

/-- Modelled from the spec: `build_json_object_element`
(request_body/hurl_json_building.rs, outside the provided sources) decorates
a (key, value) pair with layout derived from the nesting depth. -/
def build_json_object_element (name : Template) (v : JsonValue) (depth : Nat)
    (f : Formatting) : JsonObjectElement :=
  (name, object_element_space depth f, v)

/-- Schema `type` values read by the walker (`oas3::spec::SchemaType`). -/
inductive SchemaType : Type where
  | boolean : SchemaType
  | integer : SchemaType
  | number : SchemaType
  | string : SchemaType
  | array : SchemaType
  | object : SchemaType
deriving DecidableEq, Repr

/-- Either an inline schema object or a named reference
(`oas3::spec::ObjectOrReference`). -/
inductive ObjectOrReference (α : Type) : Type where
  | obj (a : α) : ObjectOrReference α
  | ref (name : String) : ObjectOrReference α

/-- Resolved schema node (`oas3::Schema`), restricted to the fields read by
request_body.rs: `read_only`, `example`, `schema_type`, `items`,
`properties` (in declaration order), and the three composition lists. -/
inductive Schema : Type where
  | mk (read_only : Option Bool) (example_val : Option SerdeValue)
      (schema_type : Option SchemaType)
      (items : Option (ObjectOrReference Schema))
      (properties : List (String × ObjectOrReference Schema))
      (all_of : List (ObjectOrReference Schema))
      (one_of : List (ObjectOrReference Schema))
      (any_of : List (ObjectOrReference Schema)) : Schema

def Schema.read_only : Schema → Option Bool
  | .mk ro _ _ _ _ _ _ _ => ro

def Schema.example_val : Schema → Option SerdeValue
  | .mk _ ex _ _ _ _ _ _ => ex

def Schema.schema_type : Schema → Option SchemaType
  | .mk _ _ t _ _ _ _ _ => t

def Schema.items : Schema → Option (ObjectOrReference Schema)
  | .mk _ _ _ it _ _ _ _ => it

def Schema.properties : Schema → List (String × ObjectOrReference Schema)
  | .mk _ _ _ _ pr _ _ _ => pr

def Schema.all_of : Schema → List (ObjectOrReference Schema)
  | .mk _ _ _ _ _ a _ _ => a

def Schema.one_of : Schema → List (ObjectOrReference Schema)
  | .mk _ _ _ _ _ _ o _ => o

def Schema.any_of : Schema → List (ObjectOrReference Schema)
  | .mk _ _ _ _ _ _ _ y => y

/-- Reference resolution failure (`oas3::spec::RefError`). -/
inductive RefError : Type where
  | unresolved (name : String) : RefError
deriving DecidableEq, Repr

/-- Spec document (`oas3::Spec`): the shared table of named component
schemas that references are resolved against. -/
structure Spec where
  schemas : List (String × Schema)

/-- Modelled from the spec: reference resolution
(`ObjectOrReference::resolve` of the external oas3 crate) is a read-only
lookup capability — an inline schema resolves to itself, a named reference
is dereferenced against the spec-wide table, and a dangling reference
fails with a resolution error. -/
def ObjectOrReference.resolve (o : ObjectOrReference Schema) (spec : Spec) :
    Except RefError Schema :=
  match o with
  | .obj s => .ok s
  | .ref name =>
    match spec.schemas.lookup name with
    | some s => .ok s
    | none => .error (.unresolved name)

/-- Intermediate classification of a schema `type`'s default value
(`SimpleJsonValue` in the source). -/
inductive SimpleJsonValue : Type where
  | Scalar (v : JsonValue) : SimpleJsonValue
  | Array : SimpleJsonValue
  | Object : SimpleJsonValue

/-- Default example value per schema type
(`default_json_value_from_schema_type`): boolean ↦ true, integer ↦ 3,
number ↦ 3.3, string ↦ template "string"; array and object are handled by
dedicated branches of the walker. -/
def default_json_value_from_schema_type : SchemaType → SimpleJsonValue
  | .boolean => .Scalar (.Boolean true)
  | .integer => .Scalar (.Number "3")
  | .number => .Scalar (.Number "3.3")
  | .string => .Scalar (.JString (template_from_string "string"))
  | .array => .Array
  | .object => .Object

mutual

/-- Example-value materializer (`serde_to_hurl_json`): converts a literal
`example` value into the output value union, recursively; depth is threaded
through unchanged to the object-element decoration. -/
def serde_to_hurl_json (serde_val : SerdeValue) (depth : Nat)
    (settings : SpecBodySettings) : JsonValue :=
  match serde_val with
  | .null => .Null
  | .bool b => .Boolean b
  | .num n => .Number n
  | .str s => .JString (template_from_string s)
  | .arr arr =>
    .List (build_json_list_space settings.formatting)
      (serde_arr_to_hurl arr depth settings)
  | .obj o => .Object "" (serde_obj_to_hurl o depth settings)

/-- Element loop of the materializer's array case: each element is
recursively materialized at the same depth and wrapped as a list element. -/
def serde_arr_to_hurl (elements : List SerdeValue) (depth : Nat)
    (settings : SpecBodySettings) : List (String × JsonValue) :=
  match elements with
  | [] => []
  | el :: rest =>
    build_json_list_value (serde_to_hurl_json el depth settings) settings.formatting
      :: serde_arr_to_hurl rest depth settings

/-- Member loop of the materializer's object case: each member is
recursively materialized in source field order, its key wrapped as a
template. -/
def serde_obj_to_hurl (fields : List (String × SerdeValue)) (depth : Nat)
    (settings : SpecBodySettings) : List JsonObjectElement :=
  match fields with
  | [] => []
  | (k, v) :: rest =>
    build_json_object_element (template_from_string k)
        (serde_to_hurl_json v depth settings) depth settings.formatting
      :: serde_obj_to_hurl rest depth settings

end

/-- Diagnostic message emitted when the walker reaches the terminal null
fallback. -/
def cannot_build_msg : String := "Couldn't build anything from schema. Returning null..."

/-- Result of one walker invocation: `none` when the fuel bound was
exhausted, otherwise the ordered diagnostic messages emitted during the walk
together with either a resolution error or an optional output value. -/
abbrev WalkResult : Type := Option (List String × Except RefError (Option JsonValue))

/-- Object-property loop shared by the walker's object branch and by the
allOf merge (lines 105–121 and 244–255 of the source): each property's
schema is resolved and converted at `depth + 1` by the supplied conversion,
and exactly the properties producing a value are kept, in declaration
order, decorated at `depth`. -/
def object_props_loop (conv : Schema → Nat → WalkResult)
    (props : List (String × ObjectOrReference Schema)) (spec : Spec)
    (depth : Nat) (settings : SpecBodySettings) :
    Option (List String × Except RefError (List JsonObjectElement)) :=
  match props with
  | [] => some ([], .ok [])
  | (name, oor) :: rest =>
    match oor.resolve spec with
    | .error e => some ([], .error e)
    | .ok s =>
      match conv s (depth + 1) with
      | none => none
      | some (logs, .error e) => some (logs, .error e)
      | some (logs, .ok r) =>
        match object_props_loop conv rest spec depth settings with
        | none => none
        | some (logs2, .error e) => some (logs ++ logs2, .error e)
        | some (logs2, .ok elems) =>
          some (logs ++ logs2, .ok
            ((match r with
              | some v =>
                [build_json_object_element (template_from_string name) v depth
                  settings.formatting]
              | none => []) ++ elems))

/-- Member loop of `json_obj_from_anyof` (lines 226–233 of the source): the
Rust for-loop returns on its first iteration, so only the first member is
resolved and converted, at the same depth; the unreachable empty-list
fallback is an empty object. -/
def anyof_loop (conv : Schema → Nat → WalkResult)
    (anyof : List (ObjectOrReference Schema)) (spec : Spec) (depth : Nat) :
    WalkResult :=
  match anyof with
  | oor :: _ =>
    match oor.resolve spec with
    | .error e => some ([], .error e)
    | .ok s => conv s depth
  | [] => some ([], .ok (some (.Object "" [])))

/-- Member loop of `json_obj_from_allof` (lines 243–256 of the source):
every member is resolved and all of its declared properties are flattened
into one property list, in member order then declaration order, via the
shared object-property loop. -/
def allof_loop (conv : Schema → Nat → WalkResult)
    (allof : List (ObjectOrReference Schema)) (spec : Spec) (depth : Nat)
    (settings : SpecBodySettings) :
    Option (List String × Except RefError (List JsonObjectElement)) :=
  match allof with
  | [] => some ([], .ok [])
  | oor :: rest =>
    match oor.resolve spec with
    | .error e => some ([], .error e)
    | .ok s =>
      match object_props_loop conv s.properties spec depth settings with
      | none => none
      | some (logs, .error e) => some (logs, .error e)
      | some (logs, .ok ps) =>
        match allof_loop conv rest spec depth settings with
        | none => none
        | some (logs2, .error e) => some (logs ++ logs2, .error e)
        | some (logs2, .ok rest2) => some (logs ++ logs2, .ok (ps ++ rest2))

/-- Schema Walker (`parse_json_from_schema`): converts a resolved schema
node into an optional example value, applying the source's rule order:
readOnly short-circuit, explicit example, type-derived default (with
dedicated array and object branches), then allOf / oneOf / anyOf, then the
logged null fallback. -/
def parse_json_from_schema : Nat → Schema → Spec → Nat → SpecBodySettings → WalkResult
  | 0, _, _, _, _ => none
  | fuel + 1, schema, spec, depth, settings =>
    if schema.read_only.getD false then
      some ([], .ok none)
    else
      match schema.example_val with
      | some ex => some ([], .ok (some (serde_to_hurl_json ex depth settings)))
      | none =>
        match schema.schema_type with
        | some t =>
          match default_json_value_from_schema_type t with
          | .Scalar s => some ([], .ok (some s))
          | .Array =>
            match schema.items with
            | some items_schema =>
              match items_schema.resolve spec with
              | .error e => some ([], .error e)
              | .ok s =>
                match parse_json_from_schema fuel s spec depth settings with
                | none => none
                | some (logs, .error e) => some (logs, .error e)
                | some (logs, .ok r) =>
                  some (logs, .ok (some (.List
                    (build_json_list_space settings.formatting)
                    (match r with
                     | some v => [build_json_list_value v settings.formatting]
                     | none => []))))
            | none => some ([], .ok (some (.List "\n" [])))
          | .Object =>
            match object_props_loop
                (fun s d => parse_json_from_schema fuel s spec d settings)
                schema.properties spec depth settings with
            | none => none
            | some (logs, .error e) => some (logs, .error e)
            | some (logs, .ok props) => some (logs, .ok (some (.Object "" props)))
        | none =>
          if 0 < schema.all_of.length then
            match allof_loop
                (fun s d => parse_json_from_schema fuel s spec d settings)
                schema.all_of spec depth settings with
            | none => none
            | some (logs, .error e) => some (logs, .error e)
            | some (logs, .ok props) => some (logs, .ok (some (.Object "" props)))
          else if 0 < schema.one_of.length then
            anyof_loop (fun s d => parse_json_from_schema fuel s spec d settings)
              schema.one_of spec depth
          else if 0 < schema.any_of.length then
            anyof_loop (fun s d => parse_json_from_schema fuel s spec d settings)
              schema.any_of spec depth
          else
            some ([cannot_build_msg], .ok (some .Null))

/-- Composition resolver for one_of and any_of (`json_obj_from_anyof`):
converts only the first member of the list, at the same depth. -/
def json_obj_from_anyof (fuel : Nat) (anyof : List (ObjectOrReference Schema))
    (spec : Spec) (depth : Nat) (settings : SpecBodySettings) : WalkResult :=
  anyof_loop (fun s d => parse_json_from_schema fuel s spec d settings)
    anyof spec depth

/-- Composition resolver for all_of (`json_obj_from_allof`): flattens every
member's properties into a single object value; note the result is always an
object, never absent. -/
def json_obj_from_allof (fuel : Nat) (allof : List (ObjectOrReference Schema))
    (spec : Spec) (depth : Nat) (settings : SpecBodySettings) :
    Option (List String × Except RefError JsonValue) :=
  match allof_loop (fun s d => parse_json_from_schema fuel s spec d settings)
      allof spec depth settings with
  | none => none
  | some (logs, .error e) => some (logs, .error e)
  | some (logs, .ok props) => some (logs, .ok (.Object "" props))

/-- ASCII lowercase of a character, modelling Rust `to_lowercase` on the
characters media-type names are made of. -/
def ascii_to_lower (c : Char) : Char :=
  if 'A' ≤ c && c ≤ 'Z' then Char.ofNat (c.toNat + 32) else c

/-- Character-list test used to model Rust `str::starts_with`. -/
def starts_with_chars : List Char → List Char → Bool
  | [], _ => true
  | _ :: _, [] => false
  | a :: as, b :: bs => a == b && starts_with_chars as bs

/-- Character-list test used to model Rust `str::contains`. -/
def has_substring (needle : List Char) : List Char → Bool
  | [] => needle.isEmpty
  | c :: rest => starts_with_chars needle (c :: rest) || has_substring needle rest

/-- The content-type filter of `from_spec_body`:
`content.0.to_lowercase().contains("json")`. -/
def contains_json (name : String) : Bool :=
  has_substring "json".data (name.data.map ascii_to_lower)

/-- Media-type entry of a request body (`oas3::spec::MediaType`, restricted
to the `schema` field read by the source). -/
structure MediaType where
  schema : Option (ObjectOrReference Schema)

/-- Request body (`oas3::spec::RequestBody`, restricted to the ordered
`content` map read by the source). -/
structure RequestBody where
  content : List (String × MediaType)

/-- Modelled from the spec: `parse_schema` (request_body/body.rs, outside
the provided sources) resolves the optional schema of a content entry; a
missing schema yields no schema, a dangling reference fails. -/
def parse_schema (schema : Option (ObjectOrReference Schema)) (spec : Spec) :
    Except RefError (Option Schema) :=
  match schema with
  | none => .ok none
  | some oor =>
    match oor.resolve spec with
    | .error e => .error e
    | .ok s => .ok (some s)

/-- Hurl body payload kinds; only the JSON kind is produced by this module
(`hurl_core::ast::Bytes`). -/
inductive Bytes : Type where
  | Json (v : JsonValue) : Bytes

/-- Modelled from the spec: `empty_space` (custom_hurl_ast.rs, outside the
provided sources) is the empty leading trivia of the emitted body. -/
def empty_space : String := ""

/-- Modelled from the spec: `newline` (custom_hurl_ast.rs, outside the
provided sources) is the single trailing newline of the emitted body. -/
def newline : String := "\n"

/-- Emitted request body (`hurl_core::ast::Body`, restricted to the fields
set by the source). -/
structure Body where
  line_terminators : List String
  space0 : String
  value : Bytes
  line_terminator0 : String

/-- Content-entry loop of `from_spec_body` (lines 35–53 of the source):
each entry's schema is resolved in turn; an entry without a schema is
skipped; the first entry whose name contains "json" (case-insensitively) is
converted by the walker at depth 1 and wrapped as a Body. -/
def from_spec_body_loop (fuel : Nat) :
    List (String × MediaType) → Spec → SpecBodySettings →
    Option (List String × Except RefError (Option Body))
  | [], _, _ => some ([], .ok none)
  | (name, mt) :: rest, spec, settings =>
    match parse_schema mt.schema spec with
    | .error e => some ([], .error e)
    | .ok none => from_spec_body_loop fuel rest spec settings
    | .ok (some schema) =>
      if contains_json name then
        match parse_json_from_schema fuel schema spec 1 settings with
        | none => none
        | some (logs, .error e) => some (logs, .error e)
        | some (logs, .ok (some v)) =>
          some (logs, .ok (some
            { line_terminators := []
              space0 := empty_space
              value := .Json v
              line_terminator0 := newline }))
        | some (logs, .ok none) => some (logs, .ok none)
      else
        from_spec_body_loop fuel rest spec settings

/-- Entry point (`from_spec_body`): iterates the request body's content
entries and produces the wrapped body for the first convertible JSON-like
entry. -/
def from_spec_body (fuel : Nat) (spec_body : RequestBody) (spec : Spec)
    (settings : SpecBodySettings) :
    Option (List String × Except RefError (Option Body)) :=
  from_spec_body_loop fuel spec_body.content spec settings

/-- Empty spec document used by concrete instances: every named reference is
dangling against it. -/
def espec : Spec := ⟨[]⟩

/-- Concrete settings used by concrete instances. -/
def stt : SpecBodySettings := ⟨.multiline⟩

/-- Schema node carrying only a `type`. -/
def typed (t : SchemaType) : Schema := .mk none none (some t) none [] [] [] []

/-- Object-typed schema with a single boolean property `p`, used to observe
the depth at which a composition member is converted. -/
def member_obj_schema : Schema :=
  .mk none none (some .object) none [("p", .obj (typed .boolean))] [] [] []

/-- Schema whose only content is a one-member `oneOf` list wrapping
`member_obj_schema`. -/
def oneof_wrapper_schema : Schema :=
  .mk none none none none [] [] [.obj member_obj_schema] []

theorem serde_arr_to_hurl_map (l : List SerdeValue) (d : Nat) (st : SpecBodySettings) :
    serde_arr_to_hurl l d st
      = l.map fun el => build_json_list_value (serde_to_hurl_json el d st) st.formatting := by
  induction l with
  | nil => rfl
  | cons el rest ih => simp [serde_arr_to_hurl, ih]

theorem serde_obj_to_hurl_map (l : List (String × SerdeValue)) (d : Nat)
    (st : SpecBodySettings) :
    serde_obj_to_hurl l d st
      = l.map fun p =>
          build_json_object_element (template_from_string p.1)
            (serde_to_hurl_json p.2 d st) d st.formatting := by
  induction l with
  | nil => rfl
  | cons p rest ih =>
    obtain ⟨k, v⟩ := p
    simp [serde_obj_to_hurl, ih]

/-- C3: for every schema node with readOnly = true, the walker returns no
output value, regardless of every other field of the node, including a
present explicit example, a type, and non-empty composition lists. -/
theorem claim_C3 (fuel : Nat) (ex : Option SerdeValue) (t : Option SchemaType)
    (it : Option (ObjectOrReference Schema))
    (pr : List (String × ObjectOrReference Schema))
    (a o y : List (ObjectOrReference Schema)) (spec : Spec) (depth : Nat)
    (st : SpecBodySettings) :
    parse_json_from_schema (fuel + 1) (.mk (some true) ex t it pr a o y) spec depth st
      = some ([], .ok none) := rfl

/-- C8: a schema node that is not readOnly and has no example, no type, and
empty allOf, oneOf and anyOf lists converts to a successful Null value — not
a resolution error — together with one diagnostic log emission. -/
theorem claim_C8 (fuel : Nat) (ro : Option Bool)
    (it : Option (ObjectOrReference Schema))
    (pr : List (String × ObjectOrReference Schema)) (spec : Spec) (depth : Nat)
    (st : SpecBodySettings) (h : ro.getD false = false) :
    parse_json_from_schema (fuel + 1) (.mk ro none none it pr [] [] []) spec depth st
      = some ([cannot_build_msg], .ok (some .Null)) := by
  simp [parse_json_from_schema, Schema.read_only, Schema.example_val,
    Schema.schema_type, Schema.all_of, Schema.one_of, Schema.any_of, h]

/-- Witness for C8 at a concrete input. -/
theorem claim_C8_witness :
    parse_json_from_schema 1 (.mk (some false) none none none [] [] [] []) espec 3 stt
      = some ([cannot_build_msg], .ok (some .Null)) :=
  claim_C8 0 (some false) none [] espec 3 stt rfl

/-- C10: a schema node with a present explicit example always converts to a
successful (non-error) result with no diagnostics, whatever its other fields
hold — including dangling references in items, properties, or composition
lists — because the example short-circuit performs no reference resolution
at all. -/
theorem claim_C10 (fuel : Nat) (ro : Option Bool) (ex : SerdeValue)
    (t : Option SchemaType) (it : Option (ObjectOrReference Schema))
    (pr : List (String × ObjectOrReference Schema))
    (a o y : List (ObjectOrReference Schema)) (spec : Spec) (depth : Nat)
    (st : SpecBodySettings) :
    ∃ r, parse_json_from_schema (fuel + 1) (.mk ro (some ex) t it pr a o y) spec depth st
      = some ([], Except.ok r) := by
  by_cases h : ro.getD false = true
  · exact ⟨none, by simp [parse_json_from_schema, Schema.read_only, h]⟩
  · exact ⟨some (serde_to_hurl_json ex depth st), by
      simp only [Bool.not_eq_true] at h
      simp [parse_json_from_schema, Schema.read_only, Schema.example_val, h]⟩

/-- C2: a schema node that is not readOnly and carries an explicit example
converts to exactly the materialized example, independently of its type,
items, properties and composition lists; and the materializer maps null to
Null, booleans to Boolean, numbers to their textual Number, strings to a
template String, arrays elementwise to a List, and objects memberwise, in
source field order, to an Object. -/
theorem claim_C2 :
    (∀ (fuel : Nat) (ro : Option Bool) (ex : SerdeValue) (t : Option SchemaType)
      (it : Option (ObjectOrReference Schema))
      (pr : List (String × ObjectOrReference Schema))
      (a o y : List (ObjectOrReference Schema)) (spec : Spec) (depth : Nat)
      (st : SpecBodySettings), ro.getD false = false →
      parse_json_from_schema (fuel + 1) (.mk ro (some ex) t it pr a o y) spec depth st
        = some ([], .ok (some (serde_to_hurl_json ex depth st))))
    ∧ (∀ (d : Nat) (st : SpecBodySettings), serde_to_hurl_json .null d st = .Null)
    ∧ (∀ (b : Bool) (d : Nat) (st : SpecBodySettings),
        serde_to_hurl_json (.bool b) d st = .Boolean b)
    ∧ (∀ (n : String) (d : Nat) (st : SpecBodySettings),
        serde_to_hurl_json (.num n) d st = .Number n)
    ∧ (∀ (s : String) (d : Nat) (st : SpecBodySettings),
        serde_to_hurl_json (.str s) d st = .JString (template_from_string s))
    ∧ (∀ (l : List SerdeValue) (d : Nat) (st : SpecBodySettings),
        serde_to_hurl_json (.arr l) d st
          = .List (build_json_list_space st.formatting)
              (l.map fun el => build_json_list_value (serde_to_hurl_json el d st) st.formatting))
    ∧ (∀ (l : List (String × SerdeValue)) (d : Nat) (st : SpecBodySettings),
        serde_to_hurl_json (.obj l) d st
          = .Object "" (l.map fun p =>
              build_json_object_element (template_from_string p.1)
                (serde_to_hurl_json p.2 d st) d st.formatting)) := by
  refine ⟨?_, fun d st => rfl, fun b d st => rfl, fun n d st => rfl, fun s d st => rfl,
    ?_, ?_⟩
  · intro fuel ro ex t it pr a o y spec depth st h
    simp [parse_json_from_schema, Schema.read_only, Schema.example_val, h]
  · intro l d st
    simp [serde_to_hurl_json, serde_arr_to_hurl_map]
  · intro l d st
    simp [serde_to_hurl_json, serde_obj_to_hurl_map]

/-- Witness for C2 at a concrete input: a nested example against schema
fields full of dangling references. -/
theorem claim_C2_witness :
    parse_json_from_schema 1
        (.mk none (some (.arr [.null, .num "7", .obj [("k", .bool false)]]))
          (some .boolean) (some (.ref "missing")) [("q", .ref "missing")]
          [.ref "missing"] [.ref "missing"] [.ref "missing"]) espec 2 stt
      = some ([], .ok (some (.List "\n  "
          [("\n  ", .Null), ("\n  ", .Number "7"),
           ("\n  ", .Object "" [(⟨"k"⟩, "    ", .Boolean false)])]))) :=
  (claim_C2.1 0 none (.arr [.null, .num "7", .obj [("k", .bool false)]])
    (some .boolean) (some (.ref "missing")) [("q", .ref "missing")]
    [.ref "missing"] [.ref "missing"] [.ref "missing"] espec 2 stt rfl).trans rfl

/-- C1 counterexample: a node with type boolean and a non-empty oneOf list
(and no readOnly, no example) converts to the type-derived default
Boolean(true); the composition result for that oneOf list is Number("3"),
a different value — so composition does not take precedence over the
node's own type-derived default. -/
theorem claim_C1_counterexample :
    parse_json_from_schema 5
        (.mk none none (some .boolean) none [] [] [.obj (typed .integer)] []) espec 1 stt
      = some ([], .ok (some (.Boolean true)))
    ∧ json_obj_from_anyof 4 [.obj (typed .integer)] espec 1 stt
      = some ([], .ok (some (.Number "3")))
    ∧ JsonValue.Boolean true ≠ JsonValue.Number "3" := by
  refine ⟨rfl, rfl, ?_⟩
  simp

/-- C1 amended: for a node that is not readOnly, a present explicit example
takes precedence over everything else; otherwise a present type makes the
result independent of the composition lists (the type-derived default takes
precedence over composition, not the other way round); with no type, a
non-empty allOf is merged, else a non-empty oneOf is selected from, else a
non-empty anyOf, else the null fallback is produced. -/
theorem claim_C1 :
    (∀ (fuel : Nat) (ro : Option Bool) (ex : SerdeValue) (t : Option SchemaType)
      (it : Option (ObjectOrReference Schema))
      (pr : List (String × ObjectOrReference Schema))
      (a o y : List (ObjectOrReference Schema)) (spec : Spec) (depth : Nat)
      (st : SpecBodySettings), ro.getD false = false →
      parse_json_from_schema (fuel + 1) (.mk ro (some ex) t it pr a o y) spec depth st
        = some ([], .ok (some (serde_to_hurl_json ex depth st))))
    ∧ (∀ (fuel : Nat) (ro : Option Bool) (t : SchemaType)
      (it : Option (ObjectOrReference Schema))
      (pr : List (String × ObjectOrReference Schema))
      (a o y : List (ObjectOrReference Schema)) (spec : Spec) (depth : Nat)
      (st : SpecBodySettings),
      parse_json_from_schema fuel (.mk ro none (some t) it pr a o y) spec depth st
        = parse_json_from_schema fuel (.mk ro none (some t) it pr [] [] []) spec depth st)
    ∧ (∀ (fuel : Nat) (ro : Option Bool) (it : Option (ObjectOrReference Schema))
      (pr : List (String × ObjectOrReference Schema)) (m : ObjectOrReference Schema)
      (a o y : List (ObjectOrReference Schema)) (spec : Spec) (depth : Nat)
      (st : SpecBodySettings), ro.getD false = false →
      parse_json_from_schema (fuel + 1) (.mk ro none none it pr (m :: a) o y) spec depth st
        = (match json_obj_from_allof fuel (m :: a) spec depth st with
           | none => none
           | some (logs, .error e) => some (logs, .error e)
           | some (logs, .ok v) => some (logs, .ok (some v))))
    ∧ (∀ (fuel : Nat) (ro : Option Bool) (it : Option (ObjectOrReference Schema))
      (pr : List (String × ObjectOrReference Schema)) (m : ObjectOrReference Schema)
      (o y : List (ObjectOrReference Schema)) (spec : Spec) (depth : Nat)
      (st : SpecBodySettings), ro.getD false = false →
      parse_json_from_schema (fuel + 1) (.mk ro none none it pr [] (m :: o) y) spec depth st
        = json_obj_from_anyof fuel (m :: o) spec depth st)
    ∧ (∀ (fuel : Nat) (ro : Option Bool) (it : Option (ObjectOrReference Schema))
      (pr : List (String × ObjectOrReference Schema)) (m : ObjectOrReference Schema)
      (y : List (ObjectOrReference Schema)) (spec : Spec) (depth : Nat)
      (st : SpecBodySettings), ro.getD false = false →
      parse_json_from_schema (fuel + 1) (.mk ro none none it pr [] [] (m :: y)) spec depth st
        = json_obj_from_anyof fuel (m :: y) spec depth st)
    ∧ (∀ (fuel : Nat) (ro : Option Bool) (it : Option (ObjectOrReference Schema))
      (pr : List (String × ObjectOrReference Schema)) (spec : Spec) (depth : Nat)
      (st : SpecBodySettings), ro.getD false = false →
      parse_json_from_schema (fuel + 1) (.mk ro none none it pr [] [] []) spec depth st
        = some ([cannot_build_msg], .ok (some .Null))) := by
  refine ⟨?_, ?_, ?_, ?_, ?_, ?_⟩
  · intro fuel ro ex t it pr a o y spec depth st h
    simp [parse_json_from_schema, Schema.read_only, Schema.example_val, h]
  · intro fuel ro t it pr a o y spec depth st
    match fuel with
    | 0 => rfl
    | fuel + 1 =>
      by_cases h : ro.getD false = true
      · simp [parse_json_from_schema, Schema.read_only, h]
      · simp only [Bool.not_eq_true] at h
        simp [parse_json_from_schema, Schema.read_only, Schema.example_val,
          Schema.schema_type, Schema.items, Schema.properties, h]
  · intro fuel ro it pr m a o y spec depth st h
    simp [parse_json_from_schema, json_obj_from_allof, Schema.read_only,
      Schema.example_val, Schema.schema_type, Schema.all_of, h]
    cases hal : allof_loop (fun s d => parse_json_from_schema fuel s spec d st)
        (m :: a) spec depth st with
    | none => rfl
    | some p =>
      obtain ⟨logs, r⟩ := p
      cases r <;> rfl
  · intro fuel ro it pr m o y spec depth st h
    simp [parse_json_from_schema, json_obj_from_anyof, Schema.read_only,
      Schema.example_val, Schema.schema_type, Schema.all_of, Schema.one_of, h]
  · intro fuel ro it pr m y spec depth st h
    simp [parse_json_from_schema, json_obj_from_anyof, Schema.read_only,
      Schema.example_val, Schema.schema_type, Schema.all_of, Schema.one_of,
      Schema.any_of, h]
  · intro fuel ro it pr spec depth st h
    simp [parse_json_from_schema, Schema.read_only, Schema.example_val,
      Schema.schema_type, Schema.all_of, Schema.one_of, Schema.any_of, h]

/-- Witness for C1 at concrete inputs: the type-over-composition clause
evaluated on the counterexample schema. -/
theorem claim_C1_witness :
    parse_json_from_schema 5
        (.mk none none (some .boolean) none [] [] [.obj (typed .integer)] []) espec 1 stt
      = some ([], .ok (some (.Boolean true))) :=
  (claim_C1.2.1 5 none .boolean none [] [] [.obj (typed .integer)] [] espec 1 stt).trans rfl

/-- C4: a non-empty oneOf list reached by a node with no readOnly, no
example and no type converts to exactly the conversion of its first member,
resolved and converted at the same depth; the remaining members are never
resolved or evaluated (the result is unchanged under replacing them); and
anyOf behaves identically. -/
theorem claim_C4 :
    (∀ (fuel : Nat) (ro : Option Bool) (it : Option (ObjectOrReference Schema))
      (pr : List (String × ObjectOrReference Schema)) (m : ObjectOrReference Schema)
      (rest y : List (ObjectOrReference Schema)) (spec : Spec) (depth : Nat)
      (st : SpecBodySettings), ro.getD false = false →
      parse_json_from_schema (fuel + 1) (.mk ro none none it pr [] (m :: rest) y) spec depth st
        = (match m.resolve spec with
           | .error e => some ([], .error e)
           | .ok s => parse_json_from_schema fuel s spec depth st))
    ∧ (∀ (fuel : Nat) (ro : Option Bool) (it : Option (ObjectOrReference Schema))
      (pr : List (String × ObjectOrReference Schema)) (m : ObjectOrReference Schema)
      (rest rest2 y : List (ObjectOrReference Schema)) (spec : Spec) (depth : Nat)
      (st : SpecBodySettings), ro.getD false = false →
      parse_json_from_schema (fuel + 1) (.mk ro none none it pr [] (m :: rest) y) spec depth st
        = parse_json_from_schema (fuel + 1) (.mk ro none none it pr [] (m :: rest2) y) spec depth st)
    ∧ (∀ (fuel : Nat) (ro : Option Bool) (it : Option (ObjectOrReference Schema))
      (pr : List (String × ObjectOrReference Schema)) (m : ObjectOrReference Schema)
      (rest : List (ObjectOrReference Schema)) (spec : Spec) (depth : Nat)
      (st : SpecBodySettings), ro.getD false = false →
      parse_json_from_schema (fuel + 1) (.mk ro none none it pr [] [] (m :: rest)) spec depth st
        = (match m.resolve spec with
           | .error e => some ([], .error e)
           | .ok s => parse_json_from_schema fuel s spec depth st))
    ∧ (∀ (fuel : Nat) (ro : Option Bool) (it : Option (ObjectOrReference Schema))
      (pr : List (String × ObjectOrReference Schema)) (m : ObjectOrReference Schema)
      (rest rest2 : List (ObjectOrReference Schema)) (spec : Spec) (depth : Nat)
      (st : SpecBodySettings), ro.getD false = false →
      parse_json_from_schema (fuel + 1) (.mk ro none none it pr [] [] (m :: rest)) spec depth st
        = parse_json_from_schema (fuel + 1) (.mk ro none none it pr [] [] (m :: rest2)) spec depth st) := by
  have case_one : ∀ (fuel : Nat) (ro : Option Bool) (it : Option (ObjectOrReference Schema))
      (pr : List (String × ObjectOrReference Schema)) (m : ObjectOrReference Schema)
      (rest y : List (ObjectOrReference Schema)) (spec : Spec) (depth : Nat)
      (st : SpecBodySettings), ro.getD false = false →
      parse_json_from_schema (fuel + 1) (.mk ro none none it pr [] (m :: rest) y) spec depth st
        = (match m.resolve spec with
           | .error e => some ([], .error e)
           | .ok s => parse_json_from_schema fuel s spec depth st) := by
    intro fuel ro it pr m rest y spec depth st h
    simp [parse_json_from_schema, anyof_loop, Schema.read_only, Schema.example_val,
      Schema.schema_type, Schema.all_of, Schema.one_of, h]
  have case_any : ∀ (fuel : Nat) (ro : Option Bool) (it : Option (ObjectOrReference Schema))
      (pr : List (String × ObjectOrReference Schema)) (m : ObjectOrReference Schema)
      (rest : List (ObjectOrReference Schema)) (spec : Spec) (depth : Nat)
      (st : SpecBodySettings), ro.getD false = false →
      parse_json_from_schema (fuel + 1) (.mk ro none none it pr [] [] (m :: rest)) spec depth st
        = (match m.resolve spec with
           | .error e => some ([], .error e)
           | .ok s => parse_json_from_schema fuel s spec depth st) := by
    intro fuel ro it pr m rest spec depth st h
    simp [parse_json_from_schema, anyof_loop, Schema.read_only, Schema.example_val,
      Schema.schema_type, Schema.all_of, Schema.one_of, Schema.any_of, h]
  refine ⟨case_one, ?_, case_any, ?_⟩
  · intro fuel ro it pr m rest rest2 y spec depth st h
    rw [case_one fuel ro it pr m rest y spec depth st h,
      case_one fuel ro it pr m rest2 y spec depth st h]
  · intro fuel ro it pr m rest rest2 spec depth st h
    rw [case_any fuel ro it pr m rest spec depth st h,
      case_any fuel ro it pr m rest2 spec depth st h]

/-- Witness for C4 at a concrete input: a two-member oneOf whose second
member is a dangling reference still converts to the first member's value. -/
theorem claim_C4_witness :
    parse_json_from_schema 2
        (.mk none none none none [] [] [.obj (typed .boolean), .ref "missing"] []) espec 1 stt
      = some ([], .ok (some (.Boolean true))) :=
  (claim_C4.1 1 none none [] (.obj (typed .boolean)) [.ref "missing"] [] espec 1 stt rfl).trans rfl

/-- C5: a non-empty allOf list reached by a node with no readOnly, no
example and no type always merges to an Object value — never to no value;
member lists concatenate in order, each member's properties are flattened
through the shared object-property loop (which converts values at depth + 1
and omits properties yielding no value); and the allOf of one-property
schemas a: string and b: integer yields exactly the object a = "string",
b = 3, in that order. -/
theorem claim_C5 :
    (∀ (fuel : Nat) (ro : Option Bool) (it : Option (ObjectOrReference Schema))
      (pr : List (String × ObjectOrReference Schema)) (m : ObjectOrReference Schema)
      (rest o y : List (ObjectOrReference Schema)) (spec : Spec) (depth : Nat)
      (st : SpecBodySettings) (logs : List String) (r : Option JsonValue),
      ro.getD false = false →
      parse_json_from_schema (fuel + 1) (.mk ro none none it pr (m :: rest) o y) spec depth st
        = some (logs, .ok r) →
      ∃ elems, r = some (.Object "" elems))
    ∧ (∀ (conv : Schema → Nat → WalkResult) (a b : List (ObjectOrReference Schema))
      (spec : Spec) (depth : Nat) (st : SpecBodySettings) (l1 l2 : List String)
      (p1 p2 : List JsonObjectElement),
      allof_loop conv a spec depth st = some (l1, .ok p1) →
      allof_loop conv b spec depth st = some (l2, .ok p2) →
      allof_loop conv (a ++ b) spec depth st = some (l1 ++ l2, .ok (p1 ++ p2)))
    ∧ (∀ (conv : Schema → Nat → WalkResult) (s : Schema)
      (rest : List (ObjectOrReference Schema)) (spec : Spec) (depth : Nat)
      (st : SpecBodySettings),
      allof_loop conv (.obj s :: rest) spec depth st
        = (match object_props_loop conv s.properties spec depth st with
           | none => none
           | some (l, .error e) => some (l, .error e)
           | some (l, .ok ps) =>
             match allof_loop conv rest spec depth st with
             | none => none
             | some (l2, .error e) => some (l ++ l2, .error e)
             | some (l2, .ok r2) => some (l ++ l2, .ok (ps ++ r2))))
    ∧ (∀ (conv : Schema → Nat → WalkResult) (k : String) (s : Schema)
      (rest : List (String × ObjectOrReference Schema)) (spec : Spec) (depth : Nat)
      (st : SpecBodySettings),
      object_props_loop conv ((k, .obj s) :: rest) spec depth st
        = (match conv s (depth + 1) with
           | none => none
           | some (l, .error e) => some (l, .error e)
           | some (l, .ok r) =>
             match object_props_loop conv rest spec depth st with
             | none => none
             | some (l2, .error e) => some (l ++ l2, .error e)
             | some (l2, .ok elems) =>
               some (l ++ l2, .ok
                 ((match r with
                   | some v => [build_json_object_element (template_from_string k) v depth st.formatting]
                   | none => []) ++ elems))))
    ∧ parse_json_from_schema 2
        (.mk none none none none []
          [.obj (.mk none none none none [("a", .obj (typed .string))] [] [] []),
           .obj (.mk none none none none [("b", .obj (typed .integer))] [] [] [])]
          [] []) espec 1 stt
      = some ([], .ok (some (.Object ""
          [(⟨"a"⟩, "  ", .JString ⟨"string"⟩), (⟨"b"⟩, "  ", .Number "3")]))) := by
  refine ⟨?_, ?_, fun conv s rest spec depth st => rfl,
    fun conv k s rest spec depth st => rfl, rfl⟩
  · intro fuel ro it pr m rest o y spec depth st logs r h heq
    simp [parse_json_from_schema, Schema.read_only, Schema.example_val,
      Schema.schema_type, Schema.all_of, h] at heq
    cases hal : allof_loop (fun s d => parse_json_from_schema fuel s spec d st)
        (m :: rest) spec depth st with
    | none => rw [hal] at heq; simp at heq
    | some p =>
      obtain ⟨l0, r0⟩ := p
      rw [hal] at heq
      cases r0 with
      | error e => simp at heq
      | ok props =>
        simp at heq
        exact ⟨props, heq.2.symm⟩
  · intro conv a b spec depth st l1 l2 p1 p2 h1 h2
    induction a generalizing l1 p1 with
    | nil =>
      simp [allof_loop] at h1
      obtain ⟨rfl, rfl⟩ := h1
      simpa using h2
    | cons m a ih =>
      rw [List.cons_append]
      cases hres : m.resolve spec with
      | error e => simp [allof_loop, hres] at h1
      | ok s =>
        simp only [allof_loop, hres] at h1 ⊢
        cases hop : object_props_loop conv s.properties spec depth st with
        | none => simp [hop] at h1
        | some q =>
          obtain ⟨l0, r0⟩ := q
          simp only [hop] at h1 ⊢
          cases r0 with
          | error e => simp at h1
          | ok ps =>
            cases har : allof_loop conv a spec depth st with
            | none => simp [har] at h1
            | some w =>
              obtain ⟨la, ra⟩ := w
              simp only [har] at h1
              cases ra with
              | error e => simp at h1
              | ok pa =>
                simp only [Option.some.injEq, Prod.mk.injEq, Except.ok.injEq] at h1
                obtain ⟨rfl, rfl⟩ := h1
                rw [ih la pa har]
                simp

/-- Witness for C5 at a concrete input: the member-concatenation clause
evaluated on two singleton allOf lists. -/
theorem claim_C5_witness :
    allof_loop (fun s d => parse_json_from_schema 1 s espec d stt)
        ([.obj (.mk none none none none [("a", .obj (typed .string))] [] [] [])]
          ++ [.obj (.mk none none none none [("b", .obj (typed .integer))] [] [] [])])
        espec 1 stt
      = some ([] ++ [],
          .ok ([(⟨"a"⟩, "  ", .JString ⟨"string"⟩)] ++ [(⟨"b"⟩, "  ", .Number "3")])) :=
  claim_C5.2.1 (fun s d => parse_json_from_schema 1 s espec d stt)
    [.obj (.mk none none none none [("a", .obj (typed .string))] [] [] [])]
    [.obj (.mk none none none none [("b", .obj (typed .integer))] [] [] [])]
    espec 1 stt [] [] [(⟨"a"⟩, "  ", .JString ⟨"string"⟩)]
    [(⟨"b"⟩, "  ", .Number "3")] rfl rfl

/-- C6 counterexample: with content entries text/xml (whose schema is a
dangling reference) followed by application/json (boolean schema), the
entry point resolves the non-JSON entry's schema too and aborts with a
resolution error; processing the JSON entry alone yields the wrapped body —
so the two outcomes differ and non-JSON entries are not simply skipped. -/
theorem claim_C6_counterexample :
    from_spec_body 3
        ⟨[("text/xml", ⟨some (.ref "missing")⟩),
          ("application/json", ⟨some (.obj (typed .boolean))⟩)]⟩ espec stt
      = some ([], .error (.unresolved "missing"))
    ∧ from_spec_body 3 ⟨[("application/json", ⟨some (.obj (typed .boolean))⟩)]⟩ espec stt
      = some ([], .ok (some ⟨[], "", .Json (.Boolean true), "\n"⟩))
    ∧ (some ([], .error (.unresolved "missing"))
          : Option (List String × Except RefError (Option Body)))
      ≠ some ([], .ok (some ⟨[], "", .Json (.Boolean true), "\n"⟩)) := by
  refine ⟨rfl, rfl, ?_⟩
  simp

/-- C6 amended: the entry point iterates content entries in declared order,
resolving each entry's schema as it goes — a dangling schema reference in
any entry reached before the first convertible JSON entry aborts with an
error, and an entry without a schema is skipped even when json-named; the
first json-named entry with a resolved schema is converted by the walker at
depth 1 and wrapped as a Body with empty leading trivia and a trailing
newline (no value from the walker gives no body); an empty content list
gives no body. -/
theorem claim_C6 :
    (∀ (fuel : Nat) (spec : Spec) (st : SpecBodySettings),
      from_spec_body fuel ⟨[]⟩ spec st = some ([], .ok none))
    ∧ (∀ (fuel : Nat) (name : String) (mt : MediaType)
      (rest : List (String × MediaType)) (spec : Spec) (st : SpecBodySettings)
      (e : RefError), parse_schema mt.schema spec = .error e →
      from_spec_body fuel ⟨(name, mt) :: rest⟩ spec st = some ([], .error e))
    ∧ (∀ (fuel : Nat) (name : String) (mt : MediaType)
      (rest : List (String × MediaType)) (spec : Spec) (st : SpecBodySettings),
      parse_schema mt.schema spec = .ok none →
      from_spec_body fuel ⟨(name, mt) :: rest⟩ spec st
        = from_spec_body fuel ⟨rest⟩ spec st)
    ∧ (∀ (fuel : Nat) (name : String) (mt : MediaType)
      (rest : List (String × MediaType)) (spec : Spec) (st : SpecBodySettings)
      (s : Schema), parse_schema mt.schema spec = .ok (some s) →
      contains_json name = false →
      from_spec_body fuel ⟨(name, mt) :: rest⟩ spec st
        = from_spec_body fuel ⟨rest⟩ spec st)
    ∧ (∀ (fuel : Nat) (name : String) (mt : MediaType)
      (rest : List (String × MediaType)) (spec : Spec) (st : SpecBodySettings)
      (s : Schema), parse_schema mt.schema spec = .ok (some s) →
      contains_json name = true →
      from_spec_body fuel ⟨(name, mt) :: rest⟩ spec st
        = (match parse_json_from_schema fuel s spec 1 st with
           | none => none
           | some (logs, .error e) => some (logs, .error e)
           | some (logs, .ok (some v)) =>
             some (logs, .ok (some ⟨[], empty_space, .Json v, newline⟩))
           | some (logs, .ok none) => some (logs, .ok none))) := by
  refine ⟨fun fuel spec st => rfl, ?_, ?_, ?_, ?_⟩
  · intro fuel name mt rest spec st e hps
    simp [from_spec_body, from_spec_body_loop, hps]
  · intro fuel name mt rest spec st hps
    simp [from_spec_body, from_spec_body_loop, hps]
  · intro fuel name mt rest spec st s hps hcj
    simp [from_spec_body, from_spec_body_loop, hps, hcj]
  · intro fuel name mt rest spec st s hps hcj
    simp [from_spec_body, from_spec_body_loop, hps, hcj]

/-- Witness for C6 at a concrete input: a JSON entry with a boolean schema,
followed by an ignored entry, becomes a wrapped boolean body. -/
theorem claim_C6_witness :
    from_spec_body 1
        ⟨[("application/json", ⟨some (.obj (typed .boolean))⟩), ("text/xml", ⟨none⟩)]⟩
        espec stt
      = some ([], .ok (some ⟨[], "", .Json (.Boolean true), "\n"⟩)) :=
  (claim_C6.2.2.2.2 1 "application/json" ⟨some (.obj (typed .boolean))⟩
    [("text/xml", ⟨none⟩)] espec stt (typed .boolean) rfl rfl).trans rfl

/-- C7 counterexample: a one-member oneOf wrapping an object schema with
one boolean property, converted at depth 1, equals the member converted at
depth 1 — its property element is decorated for depth 1 — and differs from
the member converted at depth 2, whose property element carries the depth-2
decoration; so entering a oneOf member does not increase the depth by one. -/
theorem claim_C7_counterexample :
    parse_json_from_schema 5 oneof_wrapper_schema espec 1 stt
      = parse_json_from_schema 4 member_obj_schema espec 1 stt
    ∧ parse_json_from_schema 4 member_obj_schema espec 1 stt
      = some ([], .ok (some (.Object "" [(⟨"p"⟩, "  ", .Boolean true)])))
    ∧ parse_json_from_schema 4 member_obj_schema espec 2 stt
      = some ([], .ok (some (.Object "" [(⟨"p"⟩, "    ", .Boolean true)])))
    ∧ parse_json_from_schema 5 oneof_wrapper_schema espec 1 stt
      ≠ parse_json_from_schema 4 member_obj_schema espec 2 stt := by
  refine ⟨rfl, rfl, rfl, ?_⟩
  intro hcontra
  rw [show parse_json_from_schema 5 oneof_wrapper_schema espec 1 stt
        = some ([], .ok (some (.Object "" [(⟨"p"⟩, "  ", .Boolean true)]))) from rfl,
    show parse_json_from_schema 4 member_obj_schema espec 2 stt
        = some ([], .ok (some (.Object "" [(⟨"p"⟩, "    ", .Boolean true)]))) from rfl]
    at hcontra
  simp at hcontra

/-- C7 amended: the walker's depth increases by exactly one when entering
an object property — both in the object branch and in the allOf merge,
whose members' properties go through the same loop — and is held constant
everywhere else: descending into an array's items schema and entering a
oneOf or anyOf member both keep the depth unchanged. -/
theorem claim_C7 :
    (∀ (fuel : Nat) (ro : Option Bool)
      (pr : List (String × ObjectOrReference Schema))
      (a o y : List (ObjectOrReference Schema)) (s : Schema) (spec : Spec)
      (depth : Nat) (st : SpecBodySettings), ro.getD false = false →
      parse_json_from_schema (fuel + 1) (.mk ro none (some .array) (some (.obj s)) pr a o y)
          spec depth st
        = (match parse_json_from_schema fuel s spec depth st with
           | none => none
           | some (l, .error e) => some (l, .error e)
           | some (l, .ok r) =>
             some (l, .ok (some (.List (build_json_list_space st.formatting)
               (match r with
                | some v => [build_json_list_value v st.formatting]
                | none => []))))))
    ∧ (∀ (fuel : Nat) (k : String) (s : Schema)
      (rest : List (String × ObjectOrReference Schema)) (spec : Spec) (depth : Nat)
      (st : SpecBodySettings),
      object_props_loop (fun sc d => parse_json_from_schema fuel sc spec d st)
          ((k, .obj s) :: rest) spec depth st
        = (match parse_json_from_schema fuel s spec (depth + 1) st with
           | none => none
           | some (l, .error e) => some (l, .error e)
           | some (l, .ok r) =>
             match object_props_loop (fun sc d => parse_json_from_schema fuel sc spec d st)
                 rest spec depth st with
             | none => none
             | some (l2, .error e) => some (l ++ l2, .error e)
             | some (l2, .ok elems) =>
               some (l ++ l2, .ok
                 ((match r with
                   | some v => [build_json_object_element (template_from_string k) v depth st.formatting]
                   | none => []) ++ elems))))
    ∧ (∀ (fuel : Nat) (ro : Option Bool) (it : Option (ObjectOrReference Schema))
      (pr : List (String × ObjectOrReference Schema)) (s : Schema)
      (rest y : List (ObjectOrReference Schema)) (spec : Spec) (depth : Nat)
      (st : SpecBodySettings), ro.getD false = false →
      parse_json_from_schema (fuel + 1) (.mk ro none none it pr [] (.obj s :: rest) y)
          spec depth st
        = parse_json_from_schema fuel s spec depth st)
    ∧ (∀ (fuel : Nat) (s : Schema) (rest : List (ObjectOrReference Schema))
      (spec : Spec) (depth : Nat) (st : SpecBodySettings),
      allof_loop (fun sc d => parse_json_from_schema fuel sc spec d st)
          (.obj s :: rest) spec depth st
        = (match object_props_loop (fun sc d => parse_json_from_schema fuel sc spec d st)
              s.properties spec depth st with
           | none => none
           | some (l, .error e) => some (l, .error e)
           | some (l, .ok ps) =>
             match allof_loop (fun sc d => parse_json_from_schema fuel sc spec d st)
                 rest spec depth st with
             | none => none
             | some (l2, .error e) => some (l ++ l2, .error e)
             | some (l2, .ok r2) => some (l ++ l2, .ok (ps ++ r2)))) := by
  refine ⟨?_, fun fuel k s rest spec depth st => rfl, ?_,
    fun fuel s rest spec depth st => rfl⟩
  · intro fuel ro pr a o y s spec depth st h
    simp [parse_json_from_schema, ObjectOrReference.resolve, Schema.read_only,
      Schema.example_val, Schema.schema_type, Schema.items,
      default_json_value_from_schema_type, h]
  · intro fuel ro it pr s rest y spec depth st h
    simp [parse_json_from_schema, anyof_loop, ObjectOrReference.resolve,
      Schema.read_only, Schema.example_val, Schema.schema_type, Schema.all_of,
      Schema.one_of, h]

/-- Witness for C7 at a concrete input: a oneOf member converted at an
arbitrary concrete depth is converted at that same depth. -/
theorem claim_C7_witness :
    parse_json_from_schema 2
        (.mk none none none none [] [] [.obj (typed .integer)] []) espec 7 stt
      = parse_json_from_schema 1 (typed .integer) espec 7 stt :=
  claim_C7.2.2.1 1 none none [] (typed .integer) [] [] espec 7 stt rfl

/-- C9: an array-typed node (not readOnly, no example) with no items schema
converts to an empty List decorated with the fixed single-newline spacing;
with an items schema whose conversion yields no value it converts to an
empty List decorated with the settings-derived spacing, which differs from
the single newline for every formatting; and with an items schema yielding
a value it converts to the one-element list of that value. -/
theorem claim_C9 :
    (∀ (fuel : Nat) (ro : Option Bool)
      (pr : List (String × ObjectOrReference Schema))
      (a o y : List (ObjectOrReference Schema)) (spec : Spec) (depth : Nat)
      (st : SpecBodySettings), ro.getD false = false →
      parse_json_from_schema (fuel + 1) (.mk ro none (some .array) none pr a o y) spec depth st
        = some ([], .ok (some (.List "\n" []))))
    ∧ (∀ (fuel : Nat) (ro : Option Bool)
      (pr : List (String × ObjectOrReference Schema))
      (a o y : List (ObjectOrReference Schema)) (m : ObjectOrReference Schema)
      (s : Schema) (logs : List String) (spec : Spec) (depth : Nat)
      (st : SpecBodySettings), ro.getD false = false →
      m.resolve spec = .ok s →
      parse_json_from_schema fuel s spec depth st = some (logs, .ok none) →
      parse_json_from_schema (fuel + 1) (.mk ro none (some .array) (some m) pr a o y) spec depth st
        = some (logs, .ok (some (.List (build_json_list_space st.formatting) []))))
    ∧ (∀ fo : Formatting, build_json_list_space fo ≠ "\n")
    ∧ (∀ (fuel : Nat) (ro : Option Bool)
      (pr : List (String × ObjectOrReference Schema))
      (a o y : List (ObjectOrReference Schema)) (m : ObjectOrReference Schema)
      (s : Schema) (logs : List String) (v : JsonValue) (spec : Spec) (depth : Nat)
      (st : SpecBodySettings), ro.getD false = false →
      m.resolve spec = .ok s →
      parse_json_from_schema fuel s spec depth st = some (logs, .ok (some v)) →
      parse_json_from_schema (fuel + 1) (.mk ro none (some .array) (some m) pr a o y) spec depth st
        = some (logs, .ok (some (.List (build_json_list_space st.formatting)
            [build_json_list_value v st.formatting])))) := by
  refine ⟨?_, ?_, ?_, ?_⟩
  · intro fuel ro pr a o y spec depth st h
    simp [parse_json_from_schema, Schema.read_only, Schema.example_val,
      Schema.schema_type, Schema.items, default_json_value_from_schema_type, h]
  · intro fuel ro pr a o y m s logs spec depth st h hres hp
    simp [parse_json_from_schema, Schema.read_only, Schema.example_val,
      Schema.schema_type, Schema.items, default_json_value_from_schema_type,
      h, hres, hp]
  · intro fo
    cases fo <;> simp [build_json_list_space]
  · intro fuel ro pr a o y m s logs v spec depth st h hres hp
    simp [parse_json_from_schema, Schema.read_only, Schema.example_val,
      Schema.schema_type, Schema.items, default_json_value_from_schema_type,
      h, hres, hp]

/-- Witness for C9 at a concrete input: an items schema that is readOnly
yields no value, so the array becomes an empty list with the
settings-derived decoration. -/
theorem claim_C9_witness :
    parse_json_from_schema 2
        (.mk none none (some .array)
          (some (.obj (.mk (some true) none none none [] [] [] []))) [] [] [] [])
        espec 1 stt
      = some ([], .ok (some (.List "\n  " []))) :=
  (claim_C9.2.1 1 none [] [] [] []
    (.obj (.mk (some true) none none none [] [] [] []))
    (.mk (some true) none none none [] [] [] []) [] espec 1 stt rfl rfl rfl).trans rfl

end OpenapiToHurl


